import Mathlib

/-!
Verification of the vector-store component of the Health & Safety Assistant
backend.  The definitions below are a shallow embedding of the pure-JS
variant of `vector_store.js` (functions `loadIndex`, `searchIndex`,
`dotProduct`) and of the caller `queryFaissIndex` in the server file.
Floating-point numbers are modelled by rationals; the external OpenAI
embedding call is modelled by a function parameter `embed` returning
`Option (List ℚ)` (`none` models a thrown provider error); the readable
file is modelled by `Option String` (`none` models a file that cannot be
opened) and `JSON.parse` by a function parameter
`parse : String → Option Chunk` (`none` models a parse exception).
-/

namespace VectorStore

/-- Model of JavaScript `String.prototype.trim()`: remove whitespace from
both ends of the string. -/
def jsTrim (s : String) : String :=
  ⟨((s.data.dropWhile Char.isWhitespace).reverse.dropWhile Char.isWhitespace).reverse⟩

/-- A chunk record as produced by parsing one JSON record of the chunk
file: a text passage plus an optional embedding vector (`none` when the
record lacks an embedding field). -/
structure Chunk where
  text : String
  embedding : Option (List ℚ)
deriving DecidableEq, Repr

/-- The record produced by the spread `{...v, score}` in `searchIndex`:
the chunk fields plus the similarity score. -/
structure Scored where
  text : String
  embedding : Option (List ℚ)
  score : ℚ
deriving DecidableEq, Repr

/-- Embedding of `dotProduct(a, b)`: returns 0 when either argument is
null/undefined or the lengths differ, otherwise the sum of pairwise
products (`a.reduce((sum, val, i) => sum + val * b[i], 0)`). -/
def dotProduct : Option (List ℚ) → Option (List ℚ) → ℚ
  | none, _ => 0
  | some _, none => 0
  | some a, some b =>
    if a.length = b.length then (List.zipWith (fun x y => x * y) a b).sum else 0

/-- Embedding of the mapped function `v => ({...v, score: dotProduct(q, v.embedding)})`. -/
def scoreChunk (q : List ℚ) (v : Chunk) : Scored :=
  ⟨v.text, v.embedding, dotProduct (some q) v.embedding⟩

/-- The order used by `sort((a, b) => b.score - a.score)`: `a` may be
placed before `b` exactly when the comparator is non-positive. -/
def descByScore (a b : Scored) : Prop := b.score ≤ a.score

instance : DecidableRel descByScore := fun a b =>
  inferInstanceAs (Decidable (b.score ≤ a.score))

instance : IsTotal Scored descByScore := ⟨fun a b => le_total b.score a.score⟩

instance : IsTrans Scored descByScore := ⟨fun _ _ _ h1 h2 => le_trans h2 h1⟩

/-- Embedding of `scores.sort((a, b) => b.score - a.score)`.  JavaScript
`Array.prototype.sort` is a stable sort driven by the comparator sign,
which is exactly the stable insertion sort for `descByScore`. -/
def sortDesc (l : List Scored) : List Scored := l.insertionSort descByScore

/-- Embedding of `searchIndex(rawQuery, index)` with the constant of
`.slice(0, 10)` generalised to a parameter `k` (the source fixes `k = 10`,
see `searchIndex`).  Returns `none` when the embedding call throws. -/
def searchIndexWithK (k : Nat) (embed : String → Option (List ℚ))
    (rawQuery : String) (index : List Chunk) : Option (List Scored) :=
  let query := jsTrim rawQuery
  if query = "" ∨ query.length < 3 then some []
  else
    match embed query with
    | none => none
    | some q => some ((sortDesc (index.map (scoreChunk q))).take k)

/-- Embedding of `searchIndex` as written in the source, with the
store-wide constant `K = 10` of `.slice(0, 10)`. -/
def searchIndex : (String → Option (List ℚ)) → String → List Chunk →
    Option (List Scored) :=
  searchIndexWithK 10

/-- The caller-side minimum-score cutoff `m.score >= 0.03`, the literal
0.03 being the rational 3/100. -/
def minScore : ℚ := mkRat 3 100

/-- Embedding of `matches.filter((m) => m.score >= 0.03)` in `queryFaissIndex`. -/
def retainedMatches (ms : List Scored) : List Scored :=
  ms.filter (fun m => decide (minScore ≤ m.score))

/-- The value returned by `queryFaissIndex`: `{ joined, count }`. -/
structure QueryResult where
  joined : String
  count : Nat
deriving DecidableEq, Repr

/-- Embedding of `queryFaissIndex(question)` from the server file: the
global index is passed explicitly (`none` models "not loaded at
startup"); the surrounding `try/catch` turns a thrown search error
(`searchIndex … = none`) into the degraded result. -/
def queryFaissIndex (embed : String → Option (List ℚ))
    (globalIndex : Option (List Chunk)) (question : String) : QueryResult :=
  match globalIndex with
  | none => ⟨"", 0⟩
  | some index =>
    match searchIndex embed question index with
    | none => ⟨"", 0⟩
    | some ms =>
      let filtered := retainedMatches ms
      ⟨String.intercalate "\n\n" (filtered.map (fun m => m.text)), filtered.length⟩

/-- State-passing form of `searchIndex` (constant `K = 10`) in which the
shared chunk sequence is threaded explicitly through every step of the
body, so that mutation of the store would be visible in the returned
state.  Each step of the source either reads the state (`index.map`) or
does not touch it; no step writes. -/
def searchIndexSt (embed : String → Option (List ℚ)) (rawQuery : String)
    (st : List Chunk) : Option (List Scored) × List Chunk :=
  let query := jsTrim rawQuery
  if query = "" ∨ query.length < 3 then (some [], st)
  else
    match embed query with
    | none => (none, st)
    | some q => (some ((sortDesc (st.map (scoreChunk q))).take 10), st)

/-- Model of JavaScript `split` with a fixed two-character separator
`c1 c2`, scanning left to right and splitting at every (non-overlapping,
leftmost) occurrence; the accumulator holds the current piece reversed. -/
def splitOn2 (c1 c2 : Char) : List Char → List Char → List (List Char)
  | [], acc => [acc.reverse]
  | [c], acc => [(c :: acc).reverse]
  | a :: b :: rest, acc =>
    if a = c1 ∧ b = c2 then acc.reverse :: splitOn2 c1 c2 rest []
    else splitOn2 c1 c2 (b :: rest) (a :: acc)

/-- Model of JavaScript `String.prototype.includes(pat)`: some contiguous
segment of the receiver equals `pat`. -/
def containsSeg (pat : List Char) : List Char → Bool
  | [] => pat.isEmpty
  | c :: rest => pat.isPrefixOf (c :: rest) || containsSeg pat rest

/-- Model of JavaScript `String.prototype.endsWith` for a one-character
suffix, used for `p.endsWith("\x7d")`. -/
def endsWithChar (c : Char) (l : List Char) : Bool :=
  match l.getLast? with
  | some d => d = c
  | none => false

/-- Embedding of the expression `p.endsWith("\x7d") ? p : p + "\x7d"`
applied to a part before `JSON.parse`. -/
def closeBrace (p : List Char) : List Char :=
  if endsWithChar '\x7d' p then p else p ++ ['\x7d']

/-- The inner loop of `loadIndex` over the parts produced by
`buffer.split("\x7d,")`: a part is considered only when it contains the
substring `"embedding"`; `JSON.parse` (modelled by `parse`, `none` being a
thrown parse error) failures are swallowed by the `try/catch`; after a
successful push the loop returns early once the accumulated count reaches
`limit`. -/
def processParts (parse : String → Option Chunk) (limit : Nat) :
    List (List Char) → List Chunk → List Chunk
  | [], vectors => vectors
  | p :: parts, vectors =>
    if containsSeg "\"embedding\"".data p then
      match parse ⟨closeBrace p⟩ with
      | some obj =>
        if limit ≤ (vectors ++ [obj]).length then vectors ++ [obj]
        else processParts parse limit parts (vectors ++ [obj])
      | none => processParts parse limit parts vectors
    else processParts parse limit parts vectors

/-- The load-time failure of the pure-JS `loadIndex`: the only throwing
operation outside the per-record `try/catch` is `fs.promises.open`. -/
inductive LoadError where
  | storeUnavailable
deriving DecidableEq, Repr

/-- Embedding of `loadIndex(limit)`: the readable file is `none` when it
cannot be opened (the `fs.promises.open` rejection propagates), otherwise
the full file content.  The content is accumulated into `buffer` and split
on `"\x7d,"`; `parts.pop()` keeps the final piece in `buffer` as
carry-over, and that carry-over is never parsed once the stream ends
(splitting the content into smaller stream chunks yields the same parts
in the same order, so a single chunk is assumed without loss). -/
def loadIndex (parse : String → Option Chunk) (limit : Nat)
    (file : Option String) : Except LoadError (List Chunk) :=
  match file with
  | none => Except.error LoadError.storeUnavailable
  | some content =>
    Except.ok (processParts parse limit ((splitOn2 '\x7d' ',' content.data []).dropLast) [])

/-- Sortedness in descending score order, as produced by the comparator
`(a, b) => b.score - a.score`. -/
def SortedDesc (l : List Scored) : Prop := List.Sorted descByScore l

/-- A deterministic embedding provider returning the vector `[1, 0]`. -/
def embedConst : String → Option (List ℚ) := fun _ => some [1, 0]

/-- A provider whose call always throws (models an OpenAI failure). -/
def embedFail : String → Option (List ℚ) := fun _ => none

/-- A deterministic embedding provider returning the empty vector. -/
def embedEmpty : String → Option (List ℚ) := fun _ => some []

/-- The three-chunk store of the concrete search scenario. -/
def idx3 : List Chunk :=
  [⟨"t1", some [1, 0]⟩, ⟨"t2", some [0, 1]⟩, ⟨"t3", some [7/10, 7/10]⟩]

/-- A well-formed one-record chunk file in the line-delimited format of
the chunk-file interface: a single JSON record with a text field and a
numeric embedding array, and no further line. -/
def jsonlContent : String := "\x7b\"text\":\"a\",\"embedding\":[1]\x7d"

/-- Model of `JSON.parse` restricted to the concrete record of
`jsonlContent`: that record parses to the chunk `⟨"a", [1]⟩` exactly as
`JSON.parse` would; every other string is treated as failing. -/
def parse0 : String → Option Chunk := fun s =>
  if s = "\x7b\"text\":\"a\",\"embedding\":[1]\x7d" then some ⟨"a", some [1]⟩ else none

/-- When every parse attempt throws, the part loop accumulates nothing
beyond what it started with. -/
theorem processParts_parse_none {parse : String → Option Chunk}
    (hp : ∀ s, parse s = none) (limit : Nat) :
    ∀ (parts : List (List Char)) (acc : List Chunk),
      processParts parse limit parts acc = acc := by
  intro parts
  induction parts with
  | nil => intro acc; rfl
  | cons p rest ih =>
    intro acc
    simp only [processParts, hp]
    split
    · exact ih acc
    · exact ih acc

/-- C1: for every non-trivial query (non-empty after trimming, trimmed
length at least 3) and every loaded chunk sequence, the sequence returned
by `searchIndex` is sorted in descending score order and has length at
most the store-wide constant K = 10. -/
theorem searchIndex_sorted_top10 (embed : String → Option (List ℚ))
    (q : String) (idx : List Chunk) (res : List Scored)
    (hne : jsTrim q ≠ "") (hlen : 3 ≤ (jsTrim q).length)
    (hres : searchIndex embed q idx = some res) :
    SortedDesc res ∧ res.length ≤ 10 := by
  simp only [searchIndex, searchIndexWithK] at hres
  rw [if_neg (by push_neg; exact ⟨hne, hlen⟩)] at hres
  cases he : embed (jsTrim q) with
  | none => rw [he] at hres; cases hres
  | some qe =>
    rw [he] at hres
    have hr := Option.some.inj hres
    subst hr
    constructor
    · exact List.Pairwise.sublist (List.take_sublist 10 _)
        (List.sorted_insertionSort descByScore _)
    · rw [List.length_take]
      exact min_le_left _ _

/-- Witness for C1 at a concrete provider, query and store. -/
theorem searchIndex_sorted_top10_witness :
    SortedDesc [⟨"e1", some [], 0⟩] ∧
      ([(⟨"e1", some [], 0⟩ : Scored)]).length ≤ 10 :=
  searchIndex_sorted_top10 embedEmpty "qqq" [⟨"e1", some []⟩]
    [⟨"e1", some [], 0⟩] (by decide) (by decide) (by rfl)

/-- C3: a store of three chunks with embeddings `[1,0]`, `[0,1]`,
`[0.7,0.7]` queried with embedding `[1,0]` under dot-product search with
K = 2 returns the first chunk with score 1 followed by the third chunk
with score 0.7, in that order. -/
theorem search_scenario_three_chunks :
    searchIndexWithK 2 embedConst "qqq" idx3 =
      some [⟨"t1", some [1, 0], 1⟩, ⟨"t3", some [7/10, 7/10], 7/10⟩] := by
  simp only [searchIndexWithK, embedConst, idx3]
  rw [if_neg (by decide)]
  simp only [List.map, scoreChunk, dotProduct, sortDesc, List.insertionSort,
    List.orderedInsert, List.zipWith_cons_cons, List.zipWith_nil_right, List.sum_cons,
    List.sum_nil, List.length_cons, List.length_nil]
  norm_num [descByScore]

/-- C4: a query that is empty after trimming or shorter than three
characters after trimming makes `searchIndex` return the empty sequence
for every embedding provider (in particular without depending on, hence
without calling, the provider). -/
theorem short_query_returns_empty (embed : String → Option (List ℚ))
    (q : String) (idx : List Chunk)
    (h : jsTrim q = "" ∨ (jsTrim q).length < 3) :
    searchIndex embed q idx = some [] := by
  simp only [searchIndex, searchIndexWithK]
  rw [if_pos h]

/-- Witness for C4 at a concrete one-character query. -/
theorem short_query_returns_empty_witness :
    searchIndex embedConst "a" [] = some [] :=
  short_query_returns_empty embedConst "a" [] (by decide)

/-- C2: evaluation of `loadIndex` at a well-formed one-record chunk file.
The single record parses successfully (second conjunct), yet the load
returns no record at all (first conjunct): the content contains no
`"\x7d,"` separator, so the whole file stays in the carry-over buffer
that `parts.pop()` retains and the code discards when the stream ends.
This refutes the reading that the load returns all successfully parsing
records. -/
theorem loadIndex_drops_wellformed_record :
    loadIndex parse0 10 (some jsonlContent) = Except.ok [] ∧
      parse0 jsonlContent = some ⟨"a", some [1]⟩ := by
  exact ⟨rfl, rfl⟩

/-- C5: the caller-facing query degrades to `{ joined: "", count: 0 }`
when the store was never loaded and when the search path throws (the
provider failure modelled by `searchIndex … = none`), and every match it
retains has passed the 0.03 minimum-score cutoff. -/
theorem queryFaissIndex_fail_soft (embed : String → Option (List ℚ))
    (q : String) (idx : List Chunk) (ms : List Scored) :
    queryFaissIndex embed none q = ⟨"", 0⟩ ∧
    (searchIndex embed q idx = none → queryFaissIndex embed (some idx) q = ⟨"", 0⟩) ∧
    (∀ m ∈ retainedMatches ms, minScore ≤ m.score) := by
  refine ⟨rfl, fun h => ?_, fun m hm => ?_⟩
  · simp [queryFaissIndex, h]
  · simp only [retainedMatches, List.mem_filter, decide_eq_true_eq] at hm
    exact hm.2

/-- Witness for C5 at a failing provider and a concrete retained match. -/
theorem queryFaissIndex_fail_soft_witness :
    queryFaissIndex embedFail none "abcd" = ⟨"", 0⟩ ∧
    queryFaissIndex embedFail (some []) "abcd" = ⟨"", 0⟩ ∧
    minScore ≤ (⟨"x", none, 1⟩ : Scored).score :=
  have h := queryFaissIndex_fail_soft embedFail "abcd" [] [⟨"x", none, 1⟩]
  ⟨h.1, h.2.1 (by rfl), h.2.2 ⟨"x", none, 1⟩ (by decide)⟩

/-- C6: `loadIndex` fails, with the store-unavailable error, exactly on a
file that cannot be opened; on an opened file it always returns a record
list, and a parse function that throws on every line yields the empty
list rather than a failure. -/
theorem loadIndex_error_iff_unopenable (parse : String → Option Chunk)
    (limit : Nat) :
    loadIndex parse limit none = Except.error LoadError.storeUnavailable ∧
    (∀ content, ∃ vs, loadIndex parse limit (some content) = Except.ok vs) ∧
    ((∀ s, parse s = none) →
      ∀ content, loadIndex parse limit (some content) = Except.ok []) := by
  refine ⟨rfl, fun content => ⟨_, rfl⟩, fun hp content => ?_⟩
  simp only [loadIndex]
  rw [processParts_parse_none hp]

/-- Witness for C6 at an always-failing parse function. -/
theorem loadIndex_error_iff_unopenable_witness :
    loadIndex (fun _ => none) 5 none = Except.error LoadError.storeUnavailable ∧
    loadIndex (fun _ => none) 5 (some "x") = Except.ok [] :=
  have h := loadIndex_error_iff_unopenable (fun _ => none) 5
  ⟨h.1, h.2.2 (fun _ => rfl) "x"⟩

/-- C7: against a store of zero chunks every completed search returns
the empty sequence, and against the unloaded store the caller-facing
query returns the degraded empty result without error. -/
theorem empty_store_search_empty (embed : String → Option (List ℚ))
    (q : String) :
    (∀ res, searchIndex embed q [] = some res → res = []) ∧
    queryFaissIndex embed none q = ⟨"", 0⟩ := by
  constructor
  · intro res hres
    simp only [searchIndex, searchIndexWithK] at hres
    split at hres
    · exact (Option.some.inj hres).symm
    · cases he : embed (jsTrim q) with
      | none => rw [he] at hres; cases hres
      | some qe =>
        rw [he] at hres
        simp only [List.map_nil, sortDesc, List.insertionSort, List.take_nil] at hres
        exact (Option.some.inj hres).symm
  · rfl

/-- Witness for C7 at a concrete provider and query. -/
theorem empty_store_search_empty_witness :
    (([] : List Scored) = []) ∧ queryFaissIndex embedConst none "abcd" = ⟨"", 0⟩ :=
  have h := empty_store_search_empty embedConst "abcd"
  ⟨h.1 [] (by rfl), h.2⟩

/-- C8: two searches with the same query against an unchanged chunk
sequence and providers that return identical embeddings yield identical
ordered result sequences. -/
theorem searchIndex_deterministic (e1 e2 : String → Option (List ℚ))
    (q : String) (idx : List Chunk) (h : ∀ s, e1 s = e2 s) :
    searchIndex e1 q idx = searchIndex e2 q idx := by
  simp only [searchIndex, searchIndexWithK, h]

/-- Witness for C8 at two syntactically distinct but pointwise equal
providers. -/
theorem searchIndex_deterministic_witness :
    searchIndex embedConst "abc" [] =
      searchIndex (fun _ => some [1, 0]) "abc" [] :=
  searchIndex_deterministic embedConst (fun _ => some [1, 0]) "abc" []
    (fun _ => rfl)

/-- C9: in the state-passing form of the search the store that comes out
is the store that went in — also when the embedding call fails — and the
returned value agrees with `searchIndex`; the search mutates nothing. -/
theorem searchIndex_no_mutation (embed : String → Option (List ℚ))
    (q : String) (st : List Chunk) :
    (searchIndexSt embed q st).2 = st ∧
    (searchIndexSt embed q st).1 = searchIndex embed q st := by
  by_cases hg : jsTrim q = "" ∨ (jsTrim q).length < 3
  · simp [searchIndexSt, searchIndex, searchIndexWithK, hg]
  · cases he : embed (jsTrim q) with
    | none => simp [searchIndexSt, searchIndex, searchIndexWithK, hg, he]
    | some qe => simp [searchIndexSt, searchIndex, searchIndexWithK, hg, he]

/-- C10: the similarity computation is total and yields score zero on a
missing vector or mismatched dimensionality, so such chunks score zero
instead of making the search fail. -/
theorem dotProduct_total_zero :
    (∀ b, dotProduct none b = 0) ∧
    (∀ a, dotProduct a none = 0) ∧
    (∀ x y : List ℚ, x.length ≠ y.length → dotProduct (some x) (some y) = 0) ∧
    (∀ (q : List ℚ) (v : Chunk), v.embedding = none →
      scoreChunk q v = ⟨v.text, none, 0⟩) := by
  refine ⟨fun b => rfl, fun a => ?_, fun x y h => ?_, fun q v h => ?_⟩
  · cases a <;> rfl
  · simp [dotProduct, h]
  · simp [scoreChunk, dotProduct, h]

/-- Witness for C10 at concrete vectors of mismatched length and a chunk
with a missing embedding. -/
theorem dotProduct_total_zero_witness :
    dotProduct none (some [1]) = 0 ∧ dotProduct (some [1]) none = 0 ∧
    dotProduct (some [1]) (some [1, 2]) = 0 ∧
    scoreChunk [1] ⟨"t", none⟩ = ⟨"t", none, 0⟩ :=
  ⟨dotProduct_total_zero.1 (some [1]), dotProduct_total_zero.2.1 (some [1]),
   dotProduct_total_zero.2.2.1 [1] [1, 2] (by decide),
   dotProduct_total_zero.2.2.2 [1] ⟨"t", none⟩ rfl⟩

end VectorStore
